import Mathlib

set_option maxHeartbeats 1000000

/-!
# Verification of the Lumina particle system

Shallow embedding of the interactive particle core of this repository:

* the MagicParticles component of src/App.tsx — fixed-capacity particle
  pool (spawnParticle), per-frame physics (movement, gravity, drag,
  magnetic attraction, cone collision, aging) and render-transform
  extraction (the useFrame body), the gesture handler (handleGesture) and
  the pointer handler (handlePointerDown);
* the detectMotion routine of src/components/GestureController.tsx.

Conventions of the embedding:

* JavaScript numbers are embedded as rationals (ℚ).  All constants in the
  source are decimal literals, hence exact rationals.
* Math.random() draws are embedded as an explicit stream r : ℕ → ℚ of
  pre-drawn values together with the index of the next draw; theorems that
  need the codomain of Math.random() assume 0 ≤ r i ∧ r i < 1.
* The source compares Math.sqrt(x*x + z*z) against the nonnegative bounds
  10 and coneRadius.  For 0 ≤ c, sqrt s < c is equivalent to s < c^2, so
  the embedding compares squares; lemma sqrt_as_sq_compare certifies the
  equivalence against the real square root.
* Vector3.normalize divides by the Euclidean length, which is irrational
  over ℚ.  The physics step is therefore parametric in a reciprocal-length
  function invLen : ℚ → ℚ (applied to the squared length); every theorem
  below is proved for all invLen, in particular for the true reciprocal
  length used by the library.
* The mutation of a pool slot is embedded as state passing on lists of
  particle records; the early return of spawnParticle when no dead slot is
  found is recorded by a Bool (slot claimed or silent no-op).
-/

namespace Lumina

/-- A 3D vector with rational components (embedding of THREE.Vector3). -/
structure Vec3 where
  x : ℚ
  y : ℚ
  z : ℚ
  deriving DecidableEq

/-- The zero vector, the value velocity is set to on collision. -/
def vzero : Vec3 := ⟨0, 0, 0⟩

/-- A color as set by THREE.Color.setHSL: hue, saturation, lightness.
The source only ever writes colors through setHSL, so the embedding keeps
the HSL triple.  A freshly constructed THREE.Color() is white, which in
HSL is (0, 0, 1). -/
structure ColorHSL where
  h : ℚ
  s : ℚ
  l : ℚ
  deriving DecidableEq

/-- Embedding of the ParticleData record of src/App.tsx (MagicParticles). -/
structure ParticleData where
  position : Vec3
  velocity : Vec3
  color : ColorHSL
  life : ℚ
  maxLife : ℚ
  scale : ℚ
  isStuck : Bool
  deriving DecidableEq

/-- The two spawn kinds accepted by spawnParticle. -/
inductive PType where
  | trail
  | firework
  deriving DecidableEq

/-- Pool capacity: const maxParticles = 800. -/
def maxParticles : ℕ := 800

/-- Tree cone height: const treeHeight = 12. -/
def treeHeight : ℚ := 12

/-- Tree cone base radius: const treeBaseRadius = 5. -/
def treeBaseRadius : ℚ := 5

/-- Bottom of the cone: const treeYBottom = -treeHeight / 2. -/
def treeYBottom : ℚ := -treeHeight / 2

/-- The particle record pushed for every slot by the initialization loop:
position (0, -100, 0), zero velocity, default (white) color, life 0,
maxLife 1, scale 0, isStuck false. -/
def initParticle : ParticleData :=
  { position := ⟨0, -100, 0⟩
    velocity := vzero
    color := ⟨0, 0, 1⟩
    life := 0
    maxLife := 1
    scale := 0
    isStuck := false }

/-- The pool right after the initialization loop: n copies of
initParticle (n = maxParticles in the source). -/
def initPool (n : ℕ) : List ParticleData := List.replicate n initParticle

/-- Re-initialization of a claimed slot by spawnParticle, after the dead
slot p has been found.  r is the stream of Math.random() draws and k the
index of the next draw; the body consumes six draws in source order
(velocity x, y, z, then maxLife, scale, hue). -/
def spawnFields (pos : Vec3) (type : PType) (r : ℕ → ℚ) (k : ℕ)
    (p : ParticleData) : ParticleData :=
  match type with
  | .trail =>
      { p with
        position := pos
        isStuck := false
        velocity := ⟨(r k - 1/2) * (1/10), (r (k+1) - 1/2) * (1/10),
                     (r (k+2) - 1/2) * (1/10)⟩
        life := 1
        maxLife := 1 + r (k+3) * (1/2)
        scale := r (k+4) * (3/10) + 1/10
        color := ⟨1/10 + r (k+5) * (1/10), 1, 4/5⟩ }
  | .firework =>
      { p with
        position := pos
        isStuck := false
        velocity := ⟨(r k - 1/2) * (1/2), (r (k+1) - 1/2) * (1/2),
                     (r (k+2) - 1/2) * (1/2)⟩
        life := 1
        maxLife := 3/2 + r (k+3)
        scale := r (k+4) * (2/5) + 1/5
        color := ⟨r (k+5), 1, 3/5⟩ }

/-- Embedding of spawnParticle: find the first particle with life <= 0 and
re-initialize it; if none exists, return without touching the pool.  The
Bool records whether a slot was claimed (true) or the call was a silent
no-op (false); the source function itself returns undefined on both paths,
the Bool is the observable success/no-op distinction. -/
def spawnParticle (pool : List ParticleData) (pos : Vec3) (type : PType)
    (r : ℕ → ℚ) (k : ℕ) : List ParticleData × Bool :=
  match pool with
  | [] => ([], false)
  | p :: rest =>
      if p.life ≤ 0 then (spawnFields pos type r k p :: rest, true)
      else
        let res := spawnParticle rest pos type r k
        (p :: res.1, res.2)

/-- Number of dead (reusable) slots: life <= 0. -/
def deadCount (pool : List ParticleData) : ℕ :=
  pool.countP fun p => decide (p.life ≤ 0)

/-- Number of live slots: life > 0. -/
def liveCount (pool : List ParticleData) : ℕ :=
  pool.countP fun p => decide (0 < p.life)

/-- Iterated spawning at a fixed point, recording the claimed/no-op Bool
of each call in call order; each call advances the random stream by the six draws
spawnFields consumes. -/
def spawnCalls (pool : List ParticleData) (pos : Vec3) (type : PType)
    (r : ℕ → ℚ) (k : ℕ) : ℕ → List ParticleData × List Bool
  | 0 => (pool, [])
  | n + 1 =>
      let fst := spawnParticle pool pos type r k
      let rest := spawnCalls fst.1 pos type r (k + 6) n
      (rest.1, fst.2 :: rest.2)

/-- Squared radial distance from the vertical axis: the source computes
distToCenter = Math.sqrt(x*x + z*z) and only compares it against
nonnegative bounds; the embedding keeps the square. -/
def distSq (v : Vec3) : ℚ := v.x * v.x + v.z * v.z

/-- The free-particle movement block of the physics step: integrate
position += velocity, gravity velocity.y -= 0.005, drag velocity *= 0.98,
then the magnetic attraction toward the axis.  attractionDir is
normalize((0, y, 0) - position) = (-x, 0, -z) / sqrt(x^2 + z^2); the
reciprocal length is supplied as invLen applied to the squared length. -/
def moveFree (invLen : ℚ → ℚ) (p : ParticleData) : ParticleData :=
  let pos : Vec3 := ⟨p.position.x + p.velocity.x, p.position.y + p.velocity.y,
                     p.position.z + p.velocity.z⟩
  let v1 : Vec3 := ⟨p.velocity.x, p.velocity.y - 1/200, p.velocity.z⟩
  let v2 : Vec3 := ⟨v1.x * (49/50), v1.y * (49/50), v1.z * (49/50)⟩
  let v3 : Vec3 :=
    if distSq pos < 100 ∧ treeYBottom < pos.y ∧ pos.y < treeHeight / 2 then
      ⟨v2.x + -pos.x * invLen (distSq pos) * (1/100), v2.y,
       v2.z + -pos.z * invLen (distSq pos) * (1/100)⟩
    else v2
  { p with position := pos, velocity := v3 }

/-- The cone-collision block of the physics step.  relY is the height above
the cone bottom; inside the vertical extent, the particle sticks when its
radial distance is below the cone radius at its height (compared on
squares, which for the nonnegative coneRadius is equivalent to the
square-root comparison of the source).  hueR is the Math.random() draw the
block consumes for the new hue when the collision fires. -/
def coneCollide (hueR : ℚ) (p : ParticleData) : ParticleData :=
  let relY := p.position.y - treeYBottom
  if 0 ≤ relY ∧ relY ≤ treeHeight then
    let coneRadius := (1 - relY / treeHeight) * treeBaseRadius
    if distSq p.position < coneRadius ^ 2 then
      { p with isStuck := true, velocity := vzero,
               color := ⟨hueR, 1, 1/2⟩, life := 2 }
    else p
  else p

/-- One physics step of a live particle (the life > 0 branch of the
useFrame loop): stuck particles skip the whole movement block; then aging
life -= delta * (isStuck ? 0.3 : 1.0) with the just-updated isStuck. -/
def stepLive (invLen : ℚ → ℚ) (hueR : ℚ) (delta : ℚ)
    (p : ParticleData) : ParticleData :=
  let p1 := if p.isStuck then p else coneCollide hueR (moveFree invLen p)
  { p1 with life := p1.life - delta * (if p1.isStuck then 3/10 else 1) }

/-- Per-slot output of the frame: a world transform (position and uniform
scale; rotation is identity throughout). -/
structure Transform where
  position : Vec3
  scale : ℚ
  deriving DecidableEq

/-- The parked transform written for dead slots: position (0, -1000, 0)
with zero scale. -/
def parkedTransform : Transform := ⟨⟨0, -1000, 0⟩, 0⟩

/-- One slot of the useFrame loop body: a live slot is stepped and its
transform (position, scale * (life / maxLife)) and instance color are
written; a dead slot is left untouched, its transform is parked and no
color is written (the Option records whether setColorAt ran). -/
def updateSlot (invLen : ℚ → ℚ) (hueR : ℚ) (delta : ℚ)
    (p : ParticleData) : ParticleData × Transform × Option ColorHSL :=
  if 0 < p.life then
    let q := stepLive invLen hueR delta p
    (q, ⟨q.position, q.scale * (q.life / q.maxLife)⟩, some q.color)
  else
    (p, parkedTransform, none)

/-- The full per-frame update of the pool: every slot is processed by
updateSlot; hue i is the random hue slot i would draw on a collision this
frame. -/
def stepFrame (invLen : ℚ → ℚ) (hue : ℕ → ℚ) (delta : ℚ)
    (pool : List ParticleData) : List (ParticleData × Transform × Option ColorHSL) :=
  ((List.range pool.length).zip pool).map fun ip =>
    updateSlot invLen (hue ip.1) delta ip.2

/-- The particle states after a frame. -/
def stepFrameParticles (invLen : ℚ → ℚ) (hue : ℕ → ℚ) (delta : ℚ)
    (pool : List ParticleData) : List ParticleData :=
  (stepFrame invLen hue delta pool).map fun o => o.1

/-- Running one slot through a sequence of frames; each list entry is that
(delta, collision hue draw) pair of that frame. -/
def runSteps (invLen : ℚ → ℚ) (ds : List (ℚ × ℚ))
    (p : ParticleData) : ParticleData :=
  ds.foldl (fun q d => (updateSlot invLen d.2 d.1 q).1) p

/-- An operation on the pool, for stating whole-lifetime invariants: a
spawn call or a physics frame. -/
inductive PoolOp where
  | spawn (pos : Vec3) (type : PType) (r : ℕ → ℚ) (k : ℕ)
  | frame (invLen : ℚ → ℚ) (hue : ℕ → ℚ) (delta : ℚ)

/-- Apply one pool operation. -/
def applyOp (pool : List ParticleData) : PoolOp → List ParticleData
  | .spawn pos type r k => (spawnParticle pool pos type r k).1
  | .frame invLen hue delta => stepFrameParticles invLen hue delta pool

/-- Apply a sequence of pool operations. -/
def applyOps (pool : List ParticleData) (ops : List PoolOp) : List ParticleData :=
  ops.foldl applyOp pool

/-- Modelled from the spec: InputProjector.project.  The ray–plane
intersection itself is performed by the external 3D library (Ray
intersectPlane), whose code is not part of this repository; per the spec
it returns the intersection of the ray from origin with direction dir
against the plane with the given normal and constant, or none when the
ray is parallel to the plane (zero denominator). -/
def dot (a b : Vec3) : ℚ := a.x * b.x + a.y * b.y + a.z * b.z

/-- Modelled from the spec: the intersection point of the camera ray with
the fixed depth plane, or none when the ray is parallel to the plane. -/
def project (origin dir normal : Vec3) (constant : ℚ) : Option Vec3 :=
  let denom := dot normal dir
  if denom = 0 then none
  else
    let t := -(dot origin normal + constant) / denom
    some ⟨origin.x + t * dir.x, origin.y + t * dir.y, origin.z + t * dir.z⟩

/-- The target vector of handleGesture as seen by the spawn loop: a fresh
Vector3 (0, 0, 0) that intersectPlane overwrites when there is an
intersection and leaves untouched when it returns null. -/
def gestureTarget (proj : Option Vec3) : Vec3 := proj.getD ⟨0, 0, 0⟩

/-- const count = Math.min(Math.floor(intensity / 10), 5); a negative
count runs the for loop zero times. -/
def gestureSpawnCount (intensity : ℚ) : ℕ := (min ⌊intensity / 10⌋ 5).toNat

/-- The jittered spawn point of one gesture spawn: target plus
(Math.random() - 0.5) * 2 on each axis, draws k, k+1, k+2. -/
def jitterPoint (target : Vec3) (r : ℕ → ℚ) (k : ℕ) : Vec3 :=
  ⟨target.x + (r k - 1/2) * 2, target.y + (r (k+1) - 1/2) * 2,
   target.z + (r (k+2) - 1/2) * 2⟩

/-- The gesture spawn loop: n trail spawns at fresh jittered points,
recording the point of each spawn call; every iteration consumes three jitter
draws and the six draws of spawnFields. -/
def gestureLoop (target : Vec3) (r : ℕ → ℚ) :
    ℕ → ℕ → List ParticleData → List ParticleData × List Vec3
  | _, 0, pool => (pool, [])
  | k, n + 1, pool =>
      let pt := jitterPoint target r k
      let pool1 := (spawnParticle pool pt .trail r (k + 3)).1
      let rest := gestureLoop target r (k + 9) n pool1
      (rest.1, pt :: rest.2)

/-- Embedding of the handleGesture listener of src/App.tsx.  The source
ignores the return value of intersectPlane: it tests the truthiness of the
freshly constructed target Vector3 object, which is always true, so the
spawn loop runs whether or not an intersection exists; on a null result
the loop uses the untouched (0, 0, 0) target.  Returns the new pool and
the list of points at which spawnParticle was called. -/
def handleGesture (proj : Option Vec3) (intensity : ℚ) (r : ℕ → ℚ)
    (pool : List ParticleData) : List ParticleData × List Vec3 :=
  gestureLoop (gestureTarget proj) r 0 (gestureSpawnCount intensity) pool

/-- Embedding of handlePointerDown: twenty firework spawn calls at the
resolved hit point, no jitter; returns the new pool and the per-call
claimed/no-op Bools. -/
def handlePointerDown (point : Vec3) (r : ℕ → ℚ)
    (pool : List ParticleData) : List ParticleData × List Bool :=
  spawnCalls pool point .firework r 0 20

/-! ## Motion detector (src/components/GestureController.tsx, detectMotion)

A sampled frame is the RGBA byte buffer of the 64 x 48 canvas; the
embedding keeps it as a function from byte index to byte value.  The
source loop walks the buffer four bytes at a time, so pixel idx reads
bytes 4*idx .. 4*idx+2. -/

/-- const width = 64. -/
def mdWidth : ℕ := 64

/-- const height = 48. -/
def mdHeight : ℕ := 48

/-- Sum of the absolute per-channel R+G+B differences of pixel idx
between the previous and the current frame. -/
def pixelDiff (prev cur : ℕ → ℕ) (idx : ℕ) : ℕ :=
  ((cur (4*idx) : ℤ) - (prev (4*idx) : ℤ)).natAbs +
    ((cur (4*idx+1) : ℤ) - (prev (4*idx+1) : ℤ)).natAbs +
    ((cur (4*idx+2) : ℤ) - (prev (4*idx+2) : ℤ)).natAbs

/-- A pixel is active when its difference exceeds the threshold 30. -/
def pixelActive (prev cur : ℕ → ℕ) (idx : ℕ) : Bool :=
  decide (30 < pixelDiff prev cur idx)

/-- The accumulation loop of detectMotion: over every pixel of the 64 x 48
frame, an active pixel adds its mirrored x coordinate (width - 1 - x) to
totalX, its y = idx / width to totalY, and one to totalMass.  Returns
(totalX, totalY, totalMass). -/
def accumMotion (prev cur : ℕ → ℕ) : ℕ × ℕ × ℕ :=
  (List.range (mdWidth * mdHeight)).foldl
    (fun acc idx =>
      if pixelActive prev cur idx then
        (acc.1 + (mdWidth - 1 - idx % mdWidth), acc.2.1 + idx / mdWidth,
         acc.2.2 + 1)
      else acc)
    (0, 0, 0)

/-- A motion event as delivered to onMotion: normalized x, y and the
intensity (the mass). -/
structure MotionEvent where
  x : ℚ
  y : ℚ
  intensity : ℚ
  deriving DecidableEq

/-- Embedding of one detectMotion comparison of two consecutive sampled
frames: if totalMass > 15, emit one event whose x, y are the active-pixel
centroid normalized to [-1, 1] (y inverted) and whose intensity is the
mass; otherwise emit nothing. -/
def detectMotion (prev cur : ℕ → ℕ) : Option MotionEvent :=
  let acc := accumMotion prev cur
  if 15 < acc.2.2 then
    let centerX : ℚ := (acc.1 : ℚ) / (acc.2.2 : ℚ)
    let centerY : ℚ := (acc.2.1 : ℚ) / (acc.2.2 : ℚ)
    some ⟨centerX / (mdWidth : ℚ) * 2 - 1, -(centerY / (mdHeight : ℚ)) * 2 + 1,
          (acc.2.2 : ℚ)⟩
  else none

/-! ## Helper lemmas -/

/-- A spawned slot is live: both branches of spawnFields set life to 1. -/
theorem spawnFields_life (pos : Vec3) (t : PType) (r : ℕ → ℚ) (k : ℕ)
    (p : ParticleData) : (spawnFields pos t r k p).life = 1 := by
  cases t <;> rfl

/-- spawnParticle never changes the number of slots. -/
theorem spawnParticle_length (pool : List ParticleData) (pos : Vec3)
    (t : PType) (r : ℕ → ℚ) (k : ℕ) :
    (spawnParticle pool pos t r k).1.length = pool.length := by
  induction pool with
  | nil => rfl
  | cons p rest ih =>
      by_cases h : p.life ≤ 0 <;> simp [spawnParticle, h, ih]

/-- Dead count of a cons cell. -/
theorem deadCount_cons (p : ParticleData) (l : List ParticleData) :
    deadCount (p :: l) = deadCount l + if p.life ≤ 0 then 1 else 0 := by
  simp [deadCount, List.countP_cons]

/-- Live count of a cons cell. -/
theorem liveCount_cons (p : ParticleData) (l : List ParticleData) :
    liveCount (p :: l) = liveCount l + if 0 < p.life then 1 else 0 := by
  simp [liveCount, List.countP_cons]

/-- With no dead slot, spawnParticle is a silent no-op reporting failure. -/
theorem spawnParticle_noop (pool : List ParticleData) (pos : Vec3)
    (t : PType) (r : ℕ → ℚ) (k : ℕ) (h : deadCount pool = 0) :
    spawnParticle pool pos t r k = (pool, false) := by
  induction pool with
  | nil => rfl
  | cons p rest ih =>
      rw [deadCount_cons] at h
      by_cases hp : p.life ≤ 0
      · rw [if_pos hp] at h; omega
      · have hrest : deadCount rest = 0 := by omega
        simp [spawnParticle, hp, ih hrest]

/-- With a dead slot available, spawnParticle claims one: it reports
success, the live count goes up by one, the dead count down by one. -/
theorem spawnParticle_success (pool : List ParticleData) (pos : Vec3)
    (t : PType) (r : ℕ → ℚ) (k : ℕ) (h : 0 < deadCount pool) :
    (spawnParticle pool pos t r k).2 = true ∧
    liveCount (spawnParticle pool pos t r k).1 = liveCount pool + 1 ∧
    deadCount (spawnParticle pool pos t r k).1 = deadCount pool - 1 := by
  induction pool with
  | nil => simp [deadCount] at h
  | cons p rest ih =>
      by_cases hp : p.life ≤ 0
      · have hlive : ¬ (0 : ℚ) < p.life := not_lt.mpr hp
        have h1 : ¬ (spawnFields pos t r k p).life ≤ 0 := by
          rw [spawnFields_life]; norm_num
        have h2 : (0 : ℚ) < (spawnFields pos t r k p).life := by
          rw [spawnFields_life]; norm_num
        refine ⟨by simp [spawnParticle, hp], ?_, ?_⟩
        · simp only [spawnParticle, if_pos hp, liveCount_cons, if_pos h2,
            if_neg hlive]
        · simp only [spawnParticle, if_pos hp, deadCount_cons, if_neg h1,
            if_pos hp]
          omega
      · have hl : (0 : ℚ) < p.life := not_le.mp hp
        have hrest : 0 < deadCount rest := by
          rw [deadCount_cons, if_neg hp] at h; omega
        obtain ⟨h1, h2, h3⟩ := ih hrest
        refine ⟨by simp [spawnParticle, hp, h1], ?_, ?_⟩
        · simp only [spawnParticle, if_neg hp, liveCount_cons, if_pos hl, h2]
        · simp only [spawnParticle, if_neg hp, deadCount_cons, if_neg hp, h3]
          omega

/-- spawnParticle claims exactly the first dead slot: if the pool splits
into a live prefix, a dead slot p and a suffix, the call re-initializes p
and leaves every other slot untouched. -/
theorem spawnParticle_first (pre post : List ParticleData) (p : ParticleData)
    (pos : Vec3) (t : PType) (r : ℕ → ℚ) (k : ℕ)
    (hpre : ∀ q ∈ pre, ¬ q.life ≤ 0) (hp : p.life ≤ 0) :
    spawnParticle (pre ++ p :: post) pos t r k =
      (pre ++ spawnFields pos t r k p :: post, true) := by
  induction pre with
  | nil => simp [spawnParticle, hp]
  | cons q rest ih =>
      have hq : ¬ q.life ≤ 0 := hpre q (List.mem_cons_self q rest)
      have hrest : ∀ q2 ∈ rest, ¬ q2.life ≤ 0 := fun q2 hq2 =>
        hpre q2 (List.mem_cons_of_mem q hq2)
      simp [spawnParticle, hq, ih hrest]

/-- Stats of n spawn calls at a fixed point: the first min n (deadCount)
calls succeed and the rest are no-ops, the live count grows by exactly
that many, the dead count shrinks accordingly, and the number of slots is
unchanged. -/
theorem spawnCalls_spec (pos : Vec3) (t : PType) (r : ℕ → ℚ) :
    ∀ (n : ℕ) (pool : List ParticleData) (k : ℕ),
    (spawnCalls pool pos t r k n).2 =
      List.replicate (min n (deadCount pool)) true ++
        List.replicate (n - deadCount pool) false ∧
    liveCount (spawnCalls pool pos t r k n).1 =
      liveCount pool + min n (deadCount pool) ∧
    deadCount (spawnCalls pool pos t r k n).1 = deadCount pool - n ∧
    (spawnCalls pool pos t r k n).1.length = pool.length := by
  intro n
  induction n with
  | zero => intro pool k; simp [spawnCalls]
  | succ n ih =>
      intro pool k
      by_cases hd : deadCount pool = 0
      · have hno := spawnParticle_noop pool pos t r k hd
        obtain ⟨i1, i2, i3, i4⟩ := ih pool (k + 6)
        refine ⟨?_, ?_, ?_, ?_⟩
        · simp only [spawnCalls, hno, i1, hd]
          simp [List.replicate_succ]
        · simp only [spawnCalls, hno, i2, hd]
          omega
        · simp only [spawnCalls, hno, i3, hd]
          omega
        · simp only [spawnCalls, hno, i4]
      · have hpos : 0 < deadCount pool := Nat.pos_of_ne_zero hd
        obtain ⟨s1, s2, s3⟩ := spawnParticle_success pool pos t r k hpos
        obtain ⟨i1, i2, i3, i4⟩ :=
          ih (spawnParticle pool pos t r k).1 (k + 6)
        have hmin : min n (deadCount pool - 1) + 1 =
            min (n + 1) (deadCount pool) := by omega
        refine ⟨?_, ?_, ?_, ?_⟩
        · simp only [spawnCalls, s1, i1, s3]
          have harith : n - (deadCount pool - 1) = n + 1 - deadCount pool := by
            omega
          rw [harith, ← hmin, List.replicate_succ, List.cons_append]
        · simp only [spawnCalls, i2, s2, s3]
          omega
        · simp only [spawnCalls, i3, s3]
          omega
        · simp only [spawnCalls, i4, spawnParticle_length]

/-- Every slot of the freshly initialized pool is dead. -/
theorem deadCount_initPool (n : ℕ) : deadCount (initPool n) = n := by
  induction n with
  | zero => rfl
  | succ n ih =>
      rw [initPool, List.replicate_succ, deadCount_cons]
      rw [initPool] at ih
      have h0 : initParticle.life ≤ (0 : ℚ) := le_of_eq rfl
      rw [if_pos h0, ih]

/-- No slot of the freshly initialized pool is live. -/
theorem liveCount_initPool (n : ℕ) : liveCount (initPool n) = 0 := by
  induction n with
  | zero => rfl
  | succ n ih =>
      rw [initPool, List.replicate_succ, liveCount_cons]
      rw [initPool] at ih
      have h0 : initParticle.life ≤ (0 : ℚ) := le_of_eq rfl
      rw [if_neg (not_lt.mpr h0), ih]

/-- No count of slots exceeds the number of slots. -/
theorem liveCount_le_length (pool : List ParticleData) :
    liveCount pool ≤ pool.length :=
  List.countP_le_length _

/-- A physics frame never changes the number of slots. -/
theorem stepFrameParticles_length (invLen : ℚ → ℚ) (hue : ℕ → ℚ) (delta : ℚ)
    (pool : List ParticleData) :
    (stepFrameParticles invLen hue delta pool).length = pool.length := by
  simp [stepFrameParticles, stepFrame]

/-- No pool operation changes the number of slots. -/
theorem applyOp_length (pool : List ParticleData) (op : PoolOp) :
    (applyOp pool op).length = pool.length := by
  cases op with
  | spawn pos t r k => exact spawnParticle_length pool pos t r k
  | frame invLen hue delta => exact stepFrameParticles_length invLen hue delta pool

/-- The justification for comparing squared distances: for rational s and
a nonnegative rational bound c, the source comparison sqrt s < c (over the
reals) is equivalent to the embedded comparison s < c ^ 2. -/
theorem sqrt_as_sq_compare (s c : ℚ) (hs : 0 ≤ s) (hc : 0 ≤ c) :
    Real.sqrt (s : ℝ) < (c : ℝ) ↔ s < c ^ 2 := by
  rcases eq_or_lt_of_le hc with h | h
  · have h0 : (c : ℝ) = 0 := by exact_mod_cast h.symm
    rw [h0]
    constructor
    · intro hlt
      exact absurd hlt (not_lt.mpr (Real.sqrt_nonneg _))
    · intro hlt
      rw [← h] at hlt
      simp at hlt
      exact absurd hlt (not_lt.mpr hs)
  · have hc' : (0 : ℝ) < (c : ℝ) := by exact_mod_cast h
    rw [Real.sqrt_lt' hc']
    constructor
    · intro hlt; exact_mod_cast hlt
    · intro hlt; exact_mod_cast hlt

/-- A stuck particle with zero velocity stays stuck with zero velocity
through any slot update (live or dead branch). -/
theorem updateSlot_stuck_frozen (invLen : ℚ → ℚ) (hueR delta : ℚ)
    (p : ParticleData) (hs : p.isStuck = true) (hv : p.velocity = vzero) :
    (updateSlot invLen hueR delta p).1.isStuck = true ∧
    (updateSlot invLen hueR delta p).1.velocity = vzero := by
  by_cases hl : 0 < p.life
  · simp [updateSlot, hl, stepLive, hs, hv]
  · simp [updateSlot, hl, hs, hv]

/-- The collision block fires exactly under the embedded cone condition,
producing the stuck record. -/
theorem coneCollide_fires (hueR : ℚ) (p : ParticleData)
    (h0 : 0 ≤ p.position.y - treeYBottom)
    (h1 : p.position.y - treeYBottom ≤ treeHeight)
    (hd : distSq p.position <
      ((1 - (p.position.y - treeYBottom) / treeHeight) * treeBaseRadius) ^ 2) :
    coneCollide hueR p =
      { p with isStuck := true, velocity := vzero,
               color := ⟨hueR, 1, 1/2⟩, life := 2 } := by
  rw [coneCollide]
  rw [if_pos ⟨h0, h1⟩, if_pos hd]

/-- A live free particle whose post-integration position satisfies the
cone condition sticks during its slot update: stuck flag set, velocity
zeroed, the fresh random hue assigned, life reset to 2 by the collision
block and then aged at the stuck rate. -/
theorem updateSlot_sticks (invLen : ℚ → ℚ) (hueR delta : ℚ)
    (p : ParticleData) (hfree : p.isStuck = false) (hlife : 0 < p.life)
    (h0 : 0 ≤ (moveFree invLen p).position.y - treeYBottom)
    (h1 : (moveFree invLen p).position.y - treeYBottom ≤ treeHeight)
    (hd : distSq (moveFree invLen p).position <
      ((1 - ((moveFree invLen p).position.y - treeYBottom) / treeHeight) *
        treeBaseRadius) ^ 2) :
    (updateSlot invLen hueR delta p).1.isStuck = true ∧
    (updateSlot invLen hueR delta p).1.velocity = vzero ∧
    (updateSlot invLen hueR delta p).1.color = ⟨hueR, 1, 1/2⟩ ∧
    (coneCollide hueR (moveFree invLen p)).life = 2 ∧
    (updateSlot invLen hueR delta p).1.life = 2 - delta * (3/10) := by
  have hcol := coneCollide_fires hueR (moveFree invLen p) h0 h1 hd
  have hmfree : (moveFree invLen p).isStuck = false := by
    simp [moveFree, hfree]
  rw [updateSlot, if_pos hlife]
  rw [stepLive, hfree]
  refine ⟨?_, ?_, ?_, ?_, ?_⟩ <;> simp [hcol]

/-- A live stuck particle only ages, at the stuck rate 0.3 per second. -/
theorem updateSlot_stuck_life (invLen : ℚ → ℚ) (hueR delta : ℚ)
    (p : ParticleData) (hs : p.isStuck = true) (hl : 0 < p.life) :
    (updateSlot invLen hueR delta p).1.life = p.life - delta * (3/10) := by
  simp [updateSlot, hl, stepLive, hs]

/-- Across any sequence of frames, a stuck particle with zero velocity
stays stuck with zero velocity. -/
theorem runSteps_stuck_frozen (invLen : ℚ → ℚ) (ds : List (ℚ × ℚ))
    (p : ParticleData) (hs : p.isStuck = true) (hv : p.velocity = vzero) :
    (runSteps invLen ds p).isStuck = true ∧
    (runSteps invLen ds p).velocity = vzero := by
  induction ds generalizing p with
  | nil => exact ⟨hs, hv⟩
  | cons d ds ih =>
      obtain ⟨h1, h2⟩ := updateSlot_stuck_frozen invLen d.2 d.1 p hs hv
      exact ih _ h1 h2

/-- A free particle resting at the world origin lands at the origin after
the movement block, whatever the reciprocal-length function. -/
theorem moveFree_origin (invLen : ℚ → ℚ) (p : ParticleData)
    (hpos : p.position = ⟨0, 0, 0⟩) (hvel : p.velocity = vzero) :
    (moveFree invLen p).position = ⟨0, 0, 0⟩ := by
  simp [moveFree, hpos, hvel, vzero]

/-- Generic accumulation lemma: the three-way conditional fold computes
the two sums and the count over the filtered sublist. -/
theorem foldl_accum3 (P : ℕ → Bool) (f g : ℕ → ℕ) :
    ∀ (l : List ℕ) (a b c : ℕ),
    l.foldl (fun acc idx =>
        if P idx then (acc.1 + f idx, acc.2.1 + g idx, acc.2.2 + 1) else acc)
      (a, b, c) =
      (a + ((l.filter P).map f).sum, b + ((l.filter P).map g).sum,
        c + (l.filter P).length) := by
  intro l
  induction l with
  | nil => intro a b c; simp
  | cons x xs ih =>
      intro a b c
      by_cases hx : P x
      · rw [List.foldl_cons, if_pos hx, ih, List.filter_cons_of_pos hx]
        simp [Nat.add_assoc]
        omega
      · rw [List.foldl_cons, if_neg hx, ih, List.filter_cons_of_neg hx]

/-- The accumulation loop computes the mirrored-x sum, the y sum and the
count over the active pixels of the 64 x 48 frame. -/
theorem accumMotion_spec (prev cur : ℕ → ℕ) :
    accumMotion prev cur =
      ((((List.range (mdWidth * mdHeight)).filter (pixelActive prev cur)).map
          (fun idx => mdWidth - 1 - idx % mdWidth)).sum,
       (((List.range (mdWidth * mdHeight)).filter (pixelActive prev cur)).map
          (fun idx => idx / mdWidth)).sum,
       ((List.range (mdWidth * mdHeight)).filter (pixelActive prev cur)).length) := by
  have h := foldl_accum3 (pixelActive prev cur)
    (fun idx => mdWidth - 1 - idx % mdWidth) (fun idx => idx / mdWidth)
    (List.range (mdWidth * mdHeight)) 0 0 0
  simpa [accumMotion] using h

/-- A pixel compared against itself has zero difference. -/
theorem pixelDiff_self (prev : ℕ → ℕ) (idx : ℕ) :
    pixelDiff prev prev idx = 0 := by
  simp [pixelDiff]

/-- Comparing a frame against itself activates no pixel. -/
theorem pixelActive_self (prev : ℕ → ℕ) (idx : ℕ) :
    pixelActive prev prev idx = false := by
  simp [pixelActive, pixelDiff_self]

/-- Comparing a frame against itself accumulates zero mass. -/
theorem accumMotion_self (prev : ℕ → ℕ) : accumMotion prev prev = (0, 0, 0) := by
  rw [accumMotion_spec]
  have hnil : (List.range (mdWidth * mdHeight)).filter (pixelActive prev prev)
      = [] := by
    apply List.filter_eq_nil_iff.mpr
    intro a _
    simp [pixelActive_self]
  rw [hnil]
  rfl

/-- The double-conversion of the gesture spawn count: for nonnegative
intensity the loop bound is exactly min(floor(intensity / 10), 5). -/
theorem gestureSpawnCount_eq (intensity : ℚ) (h : 0 ≤ intensity) :
    (gestureSpawnCount intensity : ℤ) = min ⌊intensity / 10⌋ 5 := by
  have h0 : (0 : ℤ) ≤ ⌊intensity / 10⌋ := Int.floor_nonneg.mpr (by positivity)
  rw [gestureSpawnCount, Int.toNat_of_nonneg (le_min h0 (by norm_num))]

/-- The gesture spawn loop records one spawn call per iteration, and its
pool effect is the spawnCalls arithmetic: min n deadCount slots claimed. -/
theorem gestureLoop_stats (target : Vec3) (r : ℕ → ℚ) :
    ∀ (n k : ℕ) (pool : List ParticleData),
    (gestureLoop target r k n pool).2.length = n ∧
    liveCount (gestureLoop target r k n pool).1 =
      liveCount pool + min n (deadCount pool) ∧
    deadCount (gestureLoop target r k n pool).1 = deadCount pool - n ∧
    (gestureLoop target r k n pool).1.length = pool.length := by
  intro n
  induction n with
  | zero => intro k pool; simp [gestureLoop]
  | succ n ih =>
      intro k pool
      by_cases hd : deadCount pool = 0
      · have hno := spawnParticle_noop pool (jitterPoint target r k) .trail r
          (k + 3) hd
        obtain ⟨i1, i2, i3, i4⟩ := ih (k + 9) pool
        refine ⟨?_, ?_, ?_, ?_⟩ <;>
          simp only [gestureLoop, hno, List.length_cons, i1, i2, i3, i4, hd] <;>
          omega
      · have hpos : 0 < deadCount pool := Nat.pos_of_ne_zero hd
        obtain ⟨s1, s2, s3⟩ := spawnParticle_success pool
          (jitterPoint target r k) .trail r (k + 3) hpos
        obtain ⟨i1, i2, i3, i4⟩ :=
          ih (k + 9) (spawnParticle pool (jitterPoint target r k) .trail r (k + 3)).1
        refine ⟨?_, ?_, ?_, ?_⟩
        · simp only [gestureLoop, List.length_cons, i1]
        · simp only [gestureLoop, i2, s2, s3]
          omega
        · simp only [gestureLoop, i3, s3]
          omega
        · simp only [gestureLoop, i4, spawnParticle_length]

/-- Every point of the gesture spawn trace is the target plus at most one
unit of jitter on each axis. -/
theorem gestureLoop_jitter (target : Vec3) (r : ℕ → ℚ)
    (hr : ∀ j, 0 ≤ r j ∧ r j < 1) :
    ∀ (n k : ℕ) (pool : List ParticleData) (pt : Vec3),
    pt ∈ (gestureLoop target r k n pool).2 →
    (-1 ≤ pt.x - target.x ∧ pt.x - target.x ≤ 1) ∧
    (-1 ≤ pt.y - target.y ∧ pt.y - target.y ≤ 1) ∧
    (-1 ≤ pt.z - target.z ∧ pt.z - target.z ≤ 1) := by
  intro n
  induction n with
  | zero => intro k pool pt hmem; simp [gestureLoop] at hmem
  | succ n ih =>
      intro k pool pt hmem
      simp only [gestureLoop, List.mem_cons] at hmem
      rcases hmem with h | h
      · subst h
        obtain ⟨ha, hb⟩ := hr k
        obtain ⟨hc, hd2⟩ := hr (k + 1)
        obtain ⟨he, hf⟩ := hr (k + 2)
        refine ⟨⟨?_, ?_⟩, ⟨?_, ?_⟩, ⟨?_, ?_⟩⟩ <;>
          simp only [jitterPoint] <;> linarith
      · exact ih (k + 9) _ pt h

/-- The spec-modelled projection returns none exactly when the ray
direction is perpendicular to the plane normal (parallel ray). -/
theorem project_none_iff (origin dir normal : Vec3) (c : ℚ) :
    project origin dir normal c = none ↔ dot normal dir = 0 := by
  by_cases h : dot normal dir = 0 <;> simp [project, h]

/-- Whenever the spec-modelled projection returns a point, the point
satisfies the plane equation exactly. -/
theorem project_plane_equation (origin dir normal : Vec3) (c : ℚ) (p : Vec3)
    (h : project origin dir normal c = some p) : dot normal p + c = 0 := by
  rw [project] at h
  by_cases hd : dot normal dir = 0
  · rw [if_pos hd] at h; cases h
  · rw [if_neg hd] at h
    rw [Option.some_inj] at h
    subst h
    simp only [dot] at hd ⊢
    field_simp
    ring

/-! ## Claim theorems -/

/-- C1: a gesture event whose camera ray is parallel to the depth plane
makes the projection return none (shown at a parallel ray), yet the
handler still performs its spawn calls: with intensity 50 and a null
projection it makes five spawn attempts and leaves five live particles in
a fresh 8-slot pool, because the source tests the truthiness of the
target vector object instead of the intersection result.  This exhibits
the divergence from the claim that a none result causes no spawn. -/
theorem projection_null_still_spawns :
    project ⟨0, 2, 25⟩ ⟨0, 1, 0⟩ ⟨1, 0, 0⟩ (-10) = none ∧
    (handleGesture none 50 (fun _ => 1/2) (initPool 8)).2.length = 5 ∧
    liveCount (handleGesture none 50 (fun _ => 1/2) (initPool 8)).1 = 5 := by
  have h5 : gestureSpawnCount 50 = 5 := by
    rw [gestureSpawnCount, show (⌊(50 : ℚ) / 10⌋ : ℤ) = 5 by norm_num]
    rfl
  refine ⟨?_, ?_, ?_⟩
  · rw [project_none_iff]
    norm_num [dot]
  · rw [handleGesture, h5]
    exact (gestureLoop_stats (gestureTarget none) (fun _ => 1/2) 5 0
      (initPool 8)).1
  · rw [handleGesture, h5]
    have h := (gestureLoop_stats (gestureTarget none) (fun _ => 1/2) 5 0
      (initPool 8)).2.1
    rw [liveCount_initPool, deadCount_initPool] at h
    rw [h]
    omega

/-- C2: spawnParticle claims exactly the first slot with life <= 0 and
reports success; with no dead slot it is a silent no-op reporting
failure and no particle changes.  Spawning 801 trail particles into the
fresh capacity-800 pool in one frame leaves exactly 800 live with the
801st call a failing no-op; a 20-call firework burst at (1, 2, 3) with
exactly 5 free slots makes exactly 5 particles live with 15 no-op
calls. -/
theorem spawn_pool_contract (pos : Vec3) (t : PType) (r : ℕ → ℚ) (k : ℕ) :
    (∀ pre post (p : ParticleData), (∀ q ∈ pre, ¬ q.life ≤ 0) → p.life ≤ 0 →
      spawnParticle (pre ++ p :: post) pos t r k =
        (pre ++ spawnFields pos t r k p :: post, true)) ∧
    (∀ pool, deadCount pool = 0 →
      spawnParticle pool pos t r k = (pool, false)) ∧
    (liveCount (spawnCalls (initPool 800) pos .trail r k 801).1 = 800 ∧
      (spawnCalls (initPool 800) pos .trail r k 801).2 =
        List.replicate 800 true ++ List.replicate 1 false) ∧
    (∀ pool, deadCount pool = 5 →
      liveCount (spawnCalls pool ⟨1, 2, 3⟩ .firework r k 20).1 =
        liveCount pool + 5 ∧
      (spawnCalls pool ⟨1, 2, 3⟩ .firework r k 20).2 =
        List.replicate 5 true ++ List.replicate 15 false) := by
  refine ⟨fun pre post p hpre hp => spawnParticle_first pre post p pos t r k hpre hp,
          fun pool h => spawnParticle_noop pool pos t r k h, ⟨?_, ?_⟩, ?_⟩
  · have h := (spawnCalls_spec pos .trail r 801 (initPool 800) k).2.1
    rw [liveCount_initPool, deadCount_initPool] at h
    rw [h]
    omega
  · have h := (spawnCalls_spec pos .trail r 801 (initPool 800) k).1
    rw [deadCount_initPool] at h
    rw [h, show (801 : ℕ) ⊓ 800 = 800 by omega,
      show (801 : ℕ) - 800 = 1 by omega]
  · intro pool hdead
    obtain ⟨h1, h2, _, _⟩ := spawnCalls_spec ⟨1, 2, 3⟩ .firework r 20 pool k
    rw [hdead] at h1 h2
    rw [show (20 : ℕ) ⊓ 5 = 5 by omega] at h1 h2
    rw [show (20 : ℕ) - 5 = 15 by omega] at h1
    exact ⟨by rw [h2], by rw [h1]⟩

/-- Witness for C2, at concrete inputs: the first-dead-slot equation on a
one-slot pool, the no-op on the empty pool, and the 20-call firework
burst into a fresh 5-slot pool. -/
theorem spawn_pool_contract_w :
    (spawnParticle [initParticle] ⟨0, 0, 0⟩ .trail (fun _ => 0) 0 =
      ([spawnFields ⟨0, 0, 0⟩ .trail (fun _ => 0) 0 initParticle], true)) ∧
    (spawnParticle [] ⟨0, 0, 0⟩ .trail (fun _ => 0) 0 = ([], false)) ∧
    (liveCount (spawnCalls (initPool 5) ⟨1, 2, 3⟩ .firework (fun _ => 0) 0 20).1 =
       liveCount (initPool 5) + 5 ∧
     (spawnCalls (initPool 5) ⟨1, 2, 3⟩ .firework (fun _ => 0) 0 20).2 =
       List.replicate 5 true ++ List.replicate 15 false) := by
  refine ⟨?_, ?_, ?_⟩
  · have h := (spawn_pool_contract ⟨0, 0, 0⟩ .trail (fun _ => 0) 0).1
      [] [] initParticle (by simp) (le_of_eq rfl)
    simpa using h
  · exact (spawn_pool_contract ⟨0, 0, 0⟩ .trail (fun _ => 0) 0).2.1 [] rfl
  · exact (spawn_pool_contract ⟨0, 0, 0⟩ .trail (fun _ => 0) 0).2.2.2
      (initPool 5) (deadCount_initPool 5)

/-- C3: for every capacity N and every sequence of spawn and frame
operations, the pool keeps exactly N slots (no growth) and the number of
simultaneously live particles never exceeds N. -/
theorem pool_capacity_invariant (N : ℕ) (ops : List PoolOp) :
    (applyOps (initPool N) ops).length = N ∧
    liveCount (applyOps (initPool N) ops) ≤ N := by
  have hlen : ∀ (l : List PoolOp) (pool : List ParticleData),
      (applyOps pool l).length = pool.length := by
    intro l
    induction l with
    | nil => intro pool; rfl
    | cons op rest ih =>
        intro pool
        have hstep : applyOps pool (op :: rest) =
            applyOps (applyOp pool op) rest := rfl
        rw [hstep, ih, applyOp_length]
  have h1 : (applyOps (initPool N) ops).length = N := by
    rw [hlen, initPool, List.length_replicate]
  exact ⟨h1, le_trans (liveCount_le_length _) (le_of_eq h1)⟩

/-- C4: a free live particle whose position (as checked by the collision
block, after the integration of this step) lies inside the vertical extent
with radial distance below the cone radius at its height becomes stuck
in that same step: stuck flag set, velocity zeroed, a fresh random hue
assigned, life reset to 2.0 by the collision block (and then aged at the
stuck rate within the same step).  In particular a free particle resting
at the world origin (relY = 6, coneRadius = 2.5, d = 0) sticks on its next
physics step. -/
theorem cone_collision_sticks (invLen : ℚ → ℚ) (hueR delta : ℚ) :
    (∀ p : ParticleData, p.isStuck = false → 0 < p.life →
      0 ≤ (moveFree invLen p).position.y - treeYBottom →
      (moveFree invLen p).position.y - treeYBottom ≤ treeHeight →
      distSq (moveFree invLen p).position <
        ((1 - ((moveFree invLen p).position.y - treeYBottom) / treeHeight) *
          treeBaseRadius) ^ 2 →
      (updateSlot invLen hueR delta p).1.isStuck = true ∧
      (updateSlot invLen hueR delta p).1.velocity = vzero ∧
      (updateSlot invLen hueR delta p).1.color = ⟨hueR, 1, 1/2⟩ ∧
      (coneCollide hueR (moveFree invLen p)).life = 2 ∧
      (updateSlot invLen hueR delta p).1.life = 2 - delta * (3/10)) ∧
    (∀ p : ParticleData, p.position = ⟨0, 0, 0⟩ → p.velocity = vzero →
      p.isStuck = false → 0 < p.life →
      (updateSlot invLen hueR delta p).1.isStuck = true ∧
      (updateSlot invLen hueR delta p).1.velocity = vzero ∧
      (updateSlot invLen hueR delta p).1.life = 2 - delta * (3/10)) := by
  constructor
  · intro p hfree hlife h0 h1 hd
    exact updateSlot_sticks invLen hueR delta p hfree hlife h0 h1 hd
  · intro p hpos hvel hfree hlife
    have hm := moveFree_origin invLen p hpos hvel
    have h0 : 0 ≤ (moveFree invLen p).position.y - treeYBottom := by
      rw [hm]; norm_num [treeYBottom, treeHeight]
    have h1 : (moveFree invLen p).position.y - treeYBottom ≤ treeHeight := by
      rw [hm]; norm_num [treeYBottom, treeHeight]
    have hd : distSq (moveFree invLen p).position <
        ((1 - ((moveFree invLen p).position.y - treeYBottom) / treeHeight) *
          treeBaseRadius) ^ 2 := by
      rw [hm]
      norm_num [distSq, treeYBottom, treeHeight, treeBaseRadius]
    obtain ⟨a, b, _, _, e⟩ :=
      updateSlot_sticks invLen hueR delta p hfree hlife h0 h1 hd
    exact ⟨a, b, e⟩

/-- Witness for C4: a concrete free particle resting at the origin with
life 1 sticks during the step with delta = 1/60. -/
theorem cone_collision_sticks_w :
    (updateSlot (fun _ => 0) (1/4) (1/60)
        ⟨⟨0, 0, 0⟩, vzero, ⟨0, 0, 1⟩, 1, 1, 1/10, false⟩).1.isStuck = true ∧
    (updateSlot (fun _ => 0) (1/4) (1/60)
        ⟨⟨0, 0, 0⟩, vzero, ⟨0, 0, 1⟩, 1, 1, 1/10, false⟩).1.velocity = vzero ∧
    (updateSlot (fun _ => 0) (1/4) (1/60)
        ⟨⟨0, 0, 0⟩, vzero, ⟨0, 0, 1⟩, 1, 1, 1/10, false⟩).1.life =
      2 - (1/60) * (3/10) :=
  (cone_collision_sticks (fun _ => 0) (1/4) (1/60)).2
    ⟨⟨0, 0, 0⟩, vzero, ⟨0, 0, 1⟩, 1, 1, 1/10, false⟩ rfl rfl rfl (by norm_num)

/-- C5: a stuck particle with zero velocity stays stuck with exactly zero
velocity through every subsequent step (over any sequence of frames), and
while it is live each step ages it by exactly 0.3 * delta, strictly
decreasing its life whenever delta > 0. -/
theorem stuck_particle_frozen_fading (invLen : ℚ → ℚ) (hueR delta : ℚ)
    (p : ParticleData) (hs : p.isStuck = true) (hv : p.velocity = vzero) :
    (updateSlot invLen hueR delta p).1.isStuck = true ∧
    (updateSlot invLen hueR delta p).1.velocity = vzero ∧
    (0 < p.life →
      (updateSlot invLen hueR delta p).1.life = p.life - delta * (3/10)) ∧
    (0 < p.life → 0 < delta →
      (updateSlot invLen hueR delta p).1.life < p.life) ∧
    (∀ ds : List (ℚ × ℚ), (runSteps invLen ds p).isStuck = true ∧
      (runSteps invLen ds p).velocity = vzero) := by
  obtain ⟨h1, h2⟩ := updateSlot_stuck_frozen invLen hueR delta p hs hv
  refine ⟨h1, h2, ?_, ?_, fun ds => runSteps_stuck_frozen invLen ds p hs hv⟩
  · intro hl
    exact updateSlot_stuck_life invLen hueR delta p hs hl
  · intro hl hdelta
    rw [updateSlot_stuck_life invLen hueR delta p hs hl]
    nlinarith

/-- Witness for C5: a concrete stuck particle with zero velocity and life
2, stepped once with delta = 1/60 and over a two-frame sequence. -/
theorem stuck_particle_frozen_fading_w :
    (updateSlot (fun _ => 0) 0 (1/60)
        ⟨⟨0, 0, 0⟩, vzero, ⟨0, 0, 1⟩, 2, 1, 1/10, true⟩).1.isStuck = true ∧
    (updateSlot (fun _ => 0) 0 (1/60)
        ⟨⟨0, 0, 0⟩, vzero, ⟨0, 0, 1⟩, 2, 1, 1/10, true⟩).1.velocity = vzero ∧
    (updateSlot (fun _ => 0) 0 (1/60)
        ⟨⟨0, 0, 0⟩, vzero, ⟨0, 0, 1⟩, 2, 1, 1/10, true⟩).1.life =
      2 - (1/60) * (3/10) ∧
    (updateSlot (fun _ => 0) 0 (1/60)
        ⟨⟨0, 0, 0⟩, vzero, ⟨0, 0, 1⟩, 2, 1, 1/10, true⟩).1.life < 2 ∧
    (runSteps (fun _ => 0) [(1/60, 0), (1/60, 0)]
        ⟨⟨0, 0, 0⟩, vzero, ⟨0, 0, 1⟩, 2, 1, 1/10, true⟩).isStuck = true := by
  obtain ⟨h1, h2, h3, h4, h5⟩ := stuck_particle_frozen_fading (fun _ => 0) 0
    (1/60) ⟨⟨0, 0, 0⟩, vzero, ⟨0, 0, 1⟩, 2, 1, 1/10, true⟩ rfl rfl
  exact ⟨h1, h2, h3 (by norm_num), h4 (by norm_num) (by norm_num),
    (h5 [(1/60, 0), (1/60, 0)]).1⟩

/-- C6: over a pair of consecutive sampled 64 x 48 frames, a pixel is
active exactly when its absolute R+G+B difference exceeds 30; the
accumulator sums the mirrored x coordinates and the y coordinates of the
active pixels and counts them as the mass; one event is emitted exactly
when the mass exceeds 15, carrying the centroid normalized to [-1, 1]
with y inverted and intensity equal to the mass; two identical frames
give mass 0 and no event. -/
theorem motion_detector_contract (prev cur : ℕ → ℕ) :
    (∀ idx, pixelActive prev cur idx = true ↔ 30 < pixelDiff prev cur idx) ∧
    accumMotion prev cur =
      ((((List.range (mdWidth * mdHeight)).filter (pixelActive prev cur)).map
          (fun idx => mdWidth - 1 - idx % mdWidth)).sum,
       (((List.range (mdWidth * mdHeight)).filter (pixelActive prev cur)).map
          (fun idx => idx / mdWidth)).sum,
       ((List.range (mdWidth * mdHeight)).filter (pixelActive prev cur)).length) ∧
    ((detectMotion prev cur).isSome ↔ 15 < (accumMotion prev cur).2.2) ∧
    (∀ e, detectMotion prev cur = some e →
      e.x = ((accumMotion prev cur).1 : ℚ) / ((accumMotion prev cur).2.2 : ℚ) /
          (mdWidth : ℚ) * 2 - 1 ∧
      e.y = -(((accumMotion prev cur).2.1 : ℚ) / ((accumMotion prev cur).2.2 : ℚ) /
          (mdHeight : ℚ)) * 2 + 1 ∧
      e.intensity = ((accumMotion prev cur).2.2 : ℚ)) ∧
    (prev = cur → accumMotion prev cur = (0, 0, 0) ∧
      detectMotion prev cur = none) := by
  refine ⟨?_, accumMotion_spec prev cur, ?_, ?_, ?_⟩
  · intro idx
    simp [pixelActive]
  · by_cases h : 15 < (accumMotion prev cur).2.2 <;> simp [detectMotion, h]
  · intro e he
    by_cases h : 15 < (accumMotion prev cur).2.2
    · rw [detectMotion] at he
      simp only [h, if_true] at he
      rw [Option.some_inj] at he
      rw [← he]
      exact ⟨rfl, rfl, rfl⟩
    · rw [detectMotion] at he
      simp [h] at he
  · intro hpc
    subst hpc
    refine ⟨accumMotion_self prev, ?_⟩
    rw [detectMotion, accumMotion_self]
    norm_num

/-- Witness for C6: two identical all-black frames produce zero mass and
no motion event. -/
theorem motion_detector_contract_w :
    accumMotion (fun _ => 0) (fun _ => 0) = (0, 0, 0) ∧
    detectMotion (fun _ => 0) (fun _ => 0) = none :=
  (motion_detector_contract (fun _ => 0) (fun _ => 0)).2.2.2.2 rfl

/-- C7: on a motion event the gesture handler makes exactly
min(floor(intensity / 10), 5) trail spawn attempts, each at the projected
point plus at most one unit of uniform jitter on each axis; on a pointer
click exactly 20 firework spawn calls are made at the single resolved hit
point with no jitter. -/
theorem gesture_pointer_spawn_contract (proj : Option Vec3) (intensity : ℚ)
    (r : ℕ → ℚ) (pool : List ParticleData) :
    (handleGesture proj intensity r pool).2.length = gestureSpawnCount intensity ∧
    (0 ≤ intensity →
      ((handleGesture proj intensity r pool).2.length : ℤ) =
        min ⌊intensity / 10⌋ 5) ∧
    liveCount (handleGesture proj intensity r pool).1 =
      liveCount pool + min (gestureSpawnCount intensity) (deadCount pool) ∧
    ((∀ j, 0 ≤ r j ∧ r j < 1) → ∀ tgt, proj = some tgt →
      ∀ pt ∈ (handleGesture proj intensity r pool).2,
      (-1 ≤ pt.x - tgt.x ∧ pt.x - tgt.x ≤ 1) ∧
      (-1 ≤ pt.y - tgt.y ∧ pt.y - tgt.y ≤ 1) ∧
      (-1 ≤ pt.z - tgt.z ∧ pt.z - tgt.z ≤ 1)) ∧
    (∀ point : Vec3, (handlePointerDown point r pool).2.length = 20 ∧
      liveCount (handlePointerDown point r pool).1 =
        liveCount pool + min 20 (deadCount pool)) := by
  have hstats := gestureLoop_stats (gestureTarget proj) r
    (gestureSpawnCount intensity) 0 pool
  refine ⟨hstats.1, ?_, hstats.2.1, ?_, ?_⟩
  · intro h
    rw [show (handleGesture proj intensity r pool).2.length =
      gestureSpawnCount intensity from hstats.1]
    exact gestureSpawnCount_eq intensity h
  · intro hr tgt hproj pt hpt
    have htgt : gestureTarget proj = tgt := by rw [hproj]; rfl
    rw [handleGesture, htgt] at hpt
    exact gestureLoop_jitter tgt r hr (gestureSpawnCount intensity) 0 pool pt hpt
  · intro point
    obtain ⟨c1, c2, _, _⟩ := spawnCalls_spec point .firework r 20 pool 0
    constructor
    · rw [handlePointerDown, c1]
      simp only [List.length_append, List.length_replicate]
      omega
    · rw [handlePointerDown, c2]

/-- Witness for C7: a motion event of intensity 50 projected to (1, 2, 3)
with the constant-half random stream over a fresh 3-slot pool, and a
pointer click at (1, 2, 3). -/
theorem gesture_pointer_spawn_contract_w :
    ((handleGesture (some ⟨1, 2, 3⟩) 50 (fun _ => 1/2) (initPool 3)).2.length : ℤ) =
      min ⌊(50 : ℚ) / 10⌋ 5 ∧
    (∀ pt ∈ (handleGesture (some ⟨1, 2, 3⟩) 50 (fun _ => 1/2) (initPool 3)).2,
      (-1 ≤ pt.x - (1 : ℚ) ∧ pt.x - (1 : ℚ) ≤ 1) ∧
      (-1 ≤ pt.y - (2 : ℚ) ∧ pt.y - (2 : ℚ) ≤ 1) ∧
      (-1 ≤ pt.z - (3 : ℚ) ∧ pt.z - (3 : ℚ) ≤ 1)) ∧
    (handlePointerDown ⟨1, 2, 3⟩ (fun _ => 1/2) (initPool 3)).2.length = 20 := by
  have h := gesture_pointer_spawn_contract (some ⟨1, 2, 3⟩) 50 (fun _ => 1/2)
    (initPool 3)
  exact ⟨h.2.1 (by norm_num),
    h.2.2.2.1 (fun j => ⟨by norm_num, by norm_num⟩) ⟨1, 2, 3⟩ rfl,
    (h.2.2.2.2 ⟨1, 2, 3⟩).1⟩

/-- C8: a successful spawn re-initializes the claimed slot with the
kind-specific ranges — trail: velocity components in [-0.05, 0.05],
life 1.0, maxLife in [1.0, 1.5], scale in [0.1, 0.4], warm gold hue band
[0.1, 0.2] at full saturation and lightness 0.8; firework: velocity
components in [-0.25, 0.25], life 1.0, maxLife in [1.5, 2.5], scale in
[0.2, 0.6], uniformly drawn hue in [0, 1) at saturation 1 and lightness
0.6 — and always resets stuck to false and the position to the spawn
point. -/
theorem spawn_kind_ranges (pos : Vec3) (r : ℕ → ℚ) (k : ℕ) (p : ParticleData)
    (hr : ∀ j, 0 ≤ r j ∧ r j < 1) :
    ((spawnFields pos .trail r k p).isStuck = false ∧
     (spawnFields pos .trail r k p).position = pos ∧
     (spawnFields pos .trail r k p).life = 1 ∧
     (-(1/20) ≤ (spawnFields pos .trail r k p).velocity.x ∧
       (spawnFields pos .trail r k p).velocity.x ≤ 1/20) ∧
     (-(1/20) ≤ (spawnFields pos .trail r k p).velocity.y ∧
       (spawnFields pos .trail r k p).velocity.y ≤ 1/20) ∧
     (-(1/20) ≤ (spawnFields pos .trail r k p).velocity.z ∧
       (spawnFields pos .trail r k p).velocity.z ≤ 1/20) ∧
     (1 ≤ (spawnFields pos .trail r k p).maxLife ∧
       (spawnFields pos .trail r k p).maxLife ≤ 3/2) ∧
     (1/10 ≤ (spawnFields pos .trail r k p).scale ∧
       (spawnFields pos .trail r k p).scale ≤ 2/5) ∧
     (1/10 ≤ (spawnFields pos .trail r k p).color.h ∧
       (spawnFields pos .trail r k p).color.h ≤ 1/5) ∧
     (spawnFields pos .trail r k p).color.s = 1 ∧
     (spawnFields pos .trail r k p).color.l = 4/5) ∧
    ((spawnFields pos .firework r k p).isStuck = false ∧
     (spawnFields pos .firework r k p).position = pos ∧
     (spawnFields pos .firework r k p).life = 1 ∧
     (-(1/4) ≤ (spawnFields pos .firework r k p).velocity.x ∧
       (spawnFields pos .firework r k p).velocity.x ≤ 1/4) ∧
     (-(1/4) ≤ (spawnFields pos .firework r k p).velocity.y ∧
       (spawnFields pos .firework r k p).velocity.y ≤ 1/4) ∧
     (-(1/4) ≤ (spawnFields pos .firework r k p).velocity.z ∧
       (spawnFields pos .firework r k p).velocity.z ≤ 1/4) ∧
     (3/2 ≤ (spawnFields pos .firework r k p).maxLife ∧
       (spawnFields pos .firework r k p).maxLife ≤ 5/2) ∧
     (1/5 ≤ (spawnFields pos .firework r k p).scale ∧
       (spawnFields pos .firework r k p).scale ≤ 3/5) ∧
     (0 ≤ (spawnFields pos .firework r k p).color.h ∧
       (spawnFields pos .firework r k p).color.h < 1) ∧
     (spawnFields pos .firework r k p).color.s = 1 ∧
     (spawnFields pos .firework r k p).color.l = 3/5) := by
  refine ⟨⟨rfl, rfl, rfl, ?_, ?_, ?_, ?_, ?_, ?_, rfl, rfl⟩,
          ⟨rfl, rfl, rfl, ?_, ?_, ?_, ?_, ?_, ?_, rfl, rfl⟩⟩ <;>
    constructor <;>
    simp only [spawnFields] <;>
    linarith [(hr k).1, (hr k).2, (hr (k+1)).1, (hr (k+1)).2,
      (hr (k+2)).1, (hr (k+2)).2, (hr (k+3)).1, (hr (k+3)).2,
      (hr (k+4)).1, (hr (k+4)).2, (hr (k+5)).1, (hr (k+5)).2]

/-- Witness for C8: the constant-half random stream. -/
theorem spawn_kind_ranges_w :
    1 ≤ (spawnFields ⟨0, 0, 0⟩ .trail (fun _ => 1/2) 0 initParticle).maxLife ∧
    (spawnFields ⟨0, 0, 0⟩ .trail (fun _ => 1/2) 0 initParticle).maxLife ≤ 3/2 ∧
    (spawnFields ⟨0, 0, 0⟩ .firework (fun _ => 1/2) 0 initParticle).isStuck =
      false := by
  have h := spawn_kind_ranges ⟨0, 0, 0⟩ (fun _ => 1/2) 0 initParticle
    (fun j => ⟨by norm_num, by norm_num⟩)
  exact ⟨(h.1.2.2.2.2.2.2.1).1, (h.1.2.2.2.2.2.2.1).2, h.2.1⟩

/-- The movement block does not touch maxLife. -/
theorem moveFree_maxLife (invLen : ℚ → ℚ) (p : ParticleData) :
    (moveFree invLen p).maxLife = p.maxLife := rfl

/-- The movement block does not touch the spawn scale. -/
theorem moveFree_scale (invLen : ℚ → ℚ) (p : ParticleData) :
    (moveFree invLen p).scale = p.scale := rfl

/-- The render output at the frame a free particle sticks: maxLife and
scale survive the step unchanged and the written uniform scale is
scale * ((2 - 0.3 delta) / maxLife). -/
theorem updateSlot_sticks_render (invLen : ℚ → ℚ) (hueR delta : ℚ)
    (p : ParticleData) (hfree : p.isStuck = false) (hlife : 0 < p.life)
    (h0 : 0 ≤ (moveFree invLen p).position.y - treeYBottom)
    (h1 : (moveFree invLen p).position.y - treeYBottom ≤ treeHeight)
    (hd : distSq (moveFree invLen p).position <
      ((1 - ((moveFree invLen p).position.y - treeYBottom) / treeHeight) *
        treeBaseRadius) ^ 2) :
    (updateSlot invLen hueR delta p).1.maxLife = p.maxLife ∧
    (updateSlot invLen hueR delta p).1.scale = p.scale ∧
    (updateSlot invLen hueR delta p).2.1.scale =
      p.scale * ((2 - delta * (3/10)) / p.maxLife) := by
  have hcol := coneCollide_fires hueR (moveFree invLen p) h0 h1 hd
  refine ⟨?_, ?_, ?_⟩ <;>
    simp [updateSlot, hlife, stepLive, hfree, hcol, moveFree_maxLife,
      moveFree_scale]

/-- C9: when a trail particle (maxLife in [1, 1.5), positive spawn scale)
becomes stuck, the collision block resets life to 2.0 while maxLife is
unchanged, so life / maxLife exceeds 1, and the uniform scale written for
the frame (for any frame time up to one second) strictly exceeds the
spawn-time scale while never exceeding twice it; trail spawns indeed give
maxLife in [1, 1.5). -/
theorem stuck_trail_scale_pop (invLen : ℚ → ℚ) (hueR delta : ℚ)
    (p : ParticleData) (hfree : p.isStuck = false) (hlife : 0 < p.life)
    (hml1 : 1 ≤ p.maxLife) (hml2 : p.maxLife < 3/2)
    (hsc : 0 < p.scale) (hd0 : 0 ≤ delta) (hd1 : delta ≤ 1)
    (h0 : 0 ≤ (moveFree invLen p).position.y - treeYBottom)
    (h1 : (moveFree invLen p).position.y - treeYBottom ≤ treeHeight)
    (hd : distSq (moveFree invLen p).position <
      ((1 - ((moveFree invLen p).position.y - treeYBottom) / treeHeight) *
        treeBaseRadius) ^ 2) :
    (coneCollide hueR (moveFree invLen p)).life = 2 ∧
    (updateSlot invLen hueR delta p).1.maxLife = p.maxLife ∧
    (updateSlot invLen hueR delta p).1.scale = p.scale ∧
    1 < 2 / p.maxLife ∧
    p.scale < (updateSlot invLen hueR delta p).2.1.scale ∧
    (updateSlot invLen hueR delta p).2.1.scale ≤ 2 * p.scale ∧
    (∀ pos2 (r2 : ℕ → ℚ) k2 (q : ParticleData),
      0 ≤ r2 (k2+3) → r2 (k2+3) < 1 →
      1 ≤ (spawnFields pos2 .trail r2 k2 q).maxLife ∧
      (spawnFields pos2 .trail r2 k2 q).maxLife < 3/2) := by
  have hml0 : (0 : ℚ) < p.maxLife := by linarith
  obtain ⟨hmax, hscale, hrender⟩ :=
    updateSlot_sticks_render invLen hueR delta p hfree hlife h0 h1 hd
  have hlife2 :=
    (updateSlot_sticks invLen hueR delta p hfree hlife h0 h1 hd).2.2.2.1
  have hratio1 : 1 < (2 - delta * (3/10)) / p.maxLife :=
    (one_lt_div hml0).mpr (by linarith)
  have hratio2 : (2 - delta * (3/10)) / p.maxLife ≤ 2 := by
    rw [div_le_iff₀ hml0]; linarith
  refine ⟨hlife2, hmax, hscale, (one_lt_div hml0).mpr (by linarith), ?_, ?_, ?_⟩
  · rw [hrender]
    have h2 := mul_lt_mul_of_pos_left hratio1 hsc
    rw [mul_one] at h2
    exact h2
  · rw [hrender]
    have h2 := mul_le_mul_of_nonneg_left hratio2 (le_of_lt hsc)
    linarith
  · intro pos2 r2 k2 q ha hb
    constructor <;> simp only [spawnFields] <;> linarith

/-- Witness for C9: a trail particle with maxLife 1 and scale 1/10
resting at the origin, stepped with delta = 1/60. -/
theorem stuck_trail_scale_pop_w :
    (1 : ℚ)/10 < (updateSlot (fun _ => 0) (1/4) (1/60)
        ⟨⟨0, 0, 0⟩, vzero, ⟨0, 0, 1⟩, 1, 1, 1/10, false⟩).2.1.scale ∧
    (updateSlot (fun _ => 0) (1/4) (1/60)
        ⟨⟨0, 0, 0⟩, vzero, ⟨0, 0, 1⟩, 1, 1, 1/10, false⟩).2.1.scale ≤
      2 * ((1 : ℚ)/10) := by
  have h := stuck_trail_scale_pop (fun _ => 0) (1/4) (1/60)
    ⟨⟨0, 0, 0⟩, vzero, ⟨0, 0, 1⟩, 1, 1, 1/10, false⟩ rfl (by norm_num)
    (by norm_num) (by norm_num) (by norm_num) (by norm_num) (by norm_num)
    (by rw [moveFree_origin (fun _ => 0) _ rfl rfl]
        norm_num [treeYBottom, treeHeight])
    (by rw [moveFree_origin (fun _ => 0) _ rfl rfl]
        norm_num [treeYBottom, treeHeight])
    (by rw [moveFree_origin (fun _ => 0) _ rfl rfl]
        norm_num [distSq, treeYBottom, treeHeight, treeBaseRadius])
  exact ⟨h.2.2.2.2.1, h.2.2.2.2.2.1⟩

/-- C10: the per-frame update of a dead slot writes only the parked
instance transform (position (0, -1000, 0), zero scale), leaves every
particle field unchanged, and writes no instance color. -/
theorem dead_slot_untouched (invLen : ℚ → ℚ) (hueR delta : ℚ)
    (p : ParticleData) (h : p.life ≤ 0) :
    updateSlot invLen hueR delta p = (p, ⟨⟨0, -1000, 0⟩, 0⟩, none) := by
  rw [updateSlot, if_neg (not_lt.mpr h)]
  rfl

/-- Witness for C10: the initial (dead) particle record. -/
theorem dead_slot_untouched_w :
    updateSlot (fun _ => 0) 0 (1/60) initParticle =
      (initParticle, ⟨⟨0, -1000, 0⟩, 0⟩, none) :=
  dead_slot_untouched (fun _ => 0) 0 (1/60) initParticle (le_of_eq rfl)

end Lumina
